import Mathlib

/-!
Shallow embedding of the Quench archive-processing core (src/core/src/lib.rs)
and proofs about its format sniffing, integrity guard, container engine and
pipeline orchestrator.  Byte streams are `List Nat` (each element a byte
value), machine integers are `Nat` with explicit masking where overflow
matters, fallible code returns `Except ExtractError`.
-/

namespace Quench

/-! ## Error model (src/core/src/lib.rs, mod errors) -/

/-- Mirrors `errors::ExtractError`.  I/O and serde errors carry only their
message text in this embedding. -/
inductive ExtractError where
  | Io (msg : String)
  | Serde (msg : String)
  | Join (msg : String)
  | IntegrityFailure (details : String)
  | Unsupported (name : String)
  | Password
  | CorruptBlock (offset : Nat)
  | Unimplemented (msg : String)
deriving DecidableEq, Repr, BEq

/-! ## Format detection (mod format_detection) -/

/-- Mirrors `format_detection::DetectedFormat`. -/
inductive DetectedFormat where
  | TarZstd
  | TarLz4
  | TarBrotli
  | TarGzip
  | TarPlain
  | Zip
  | SevenZip
  | Rar
  | Unknown
deriving DecidableEq, Repr, BEq

/-- List prefix test on byte lists, mirroring `<[u8]>::starts_with`. -/
def bytesStartWith (buffer magic : List Nat) : Bool :=
  magic = buffer.take magic.length

/-- Mirrors `format_detection::validate_tar_header`: requires a 512-byte view,
a null byte in the 100-byte filename area, and then the disjunction
`checksum_valid || magic_valid` conjoined with `has_null` (exactly the Rust
expression `has_null && (checksum_valid || magic_valid)`). -/
def validate_tar_header (buffer : List Nat) : Bool :=
  if buffer.length < 512 then false
  else
    let filename_area := buffer.take 100
    let has_null := filename_area.any (fun b => b = 0)
    let checksum_area := (buffer.drop 148).take 7
    let checksum_valid := checksum_area.all
      (fun b => b = 0 || (48 ≤ b && b ≤ 57) || b = 32)
    let magic_area := (buffer.drop 257).take 6
    let magic_valid :=
      magic_area = [117, 115, 116, 97, 114, 0] || magic_area.all (fun b => b = 0)
    has_null && (checksum_valid || magic_valid)

/-- Mirrors `format_detection::detect_from_magic_bytes` on the file's byte
content.  The Rust code reads into a zero-initialised 262-byte stack buffer;
`n` is the number of bytes actually read (at most 262) and every subsequent
check runs against the full 262-byte buffer, so we model the buffer as the
first `min 262 (data.length)` bytes padded with zeros to length 262. -/
def detect_from_magic_bytes (data : List Nat) : DetectedFormat :=
  let n := min data.length 262
  let buffer := data.take 262 ++ List.replicate (262 - n) 0
  if n = 0 then DetectedFormat.Unknown
  else if bytesStartWith buffer [0x50, 0x4B, 0x03, 0x04]
       || bytesStartWith buffer [0x50, 0x4B, 0x05, 0x06] then DetectedFormat.Zip
  else if bytesStartWith buffer [0x37, 0x7A, 0xBC, 0xAF, 0x27, 0x1C] then DetectedFormat.SevenZip
  else if bytesStartWith buffer [0x52, 0x61, 0x72, 0x21, 0x1A, 0x07] then DetectedFormat.Rar
  else if bytesStartWith buffer [0x28, 0xB5, 0x2F, 0xFD] then DetectedFormat.TarZstd
  else if bytesStartWith buffer [0x18, 0x4D, 0x22, 0x04] then DetectedFormat.TarLz4
  else if 2 ≤ n && (buffer.headD 0).land 0xE0 = 0
       && ((buffer.drop 1).headD 0).land 0x03 ≠ 0x03 then DetectedFormat.TarBrotli
  else if bytesStartWith buffer [0x1F, 0x8B] then DetectedFormat.TarGzip
  else if 512 ≤ n && validate_tar_header buffer then DetectedFormat.TarPlain
  else DetectedFormat.Unknown

/-- Suffix test on character lists, mirroring Rust `str::ends_with`.
(File and format names are modelled as `List Char` so that every operation
on them is kernel-computable.) -/
def listEndsWith (s post : List Char) : Bool :=
  decide (post = s.drop (s.length - post.length))

/-- Split a character list on the dot separator, mirroring
`str::split('.')`. -/
def splitOnDot : List Char → List (List Char)
  | [] => [[]]
  | c :: rest =>
      let r := splitOnDot rest
      if c = '.' then [] :: r
      else
        match r with
        | [] => [[c]]
        | h :: t => (c :: h) :: t

/-- Extension of a file name following Rust `Path::extension`: the part
after the last dot, except that a leading-dot name with no further dot has
no extension. -/
def rustExtension (fileName : List Char) : List Char :=
  match splitOnDot fileName with
  | [] => []
  | [_] => []
  | p :: rest => if p = [] && rest.length = 1 then [] else rest.getLastD []

/-- Mirrors `format_detection::detect_from_extension` on the file name. -/
def detect_from_extension (fileName : List Char) : DetectedFormat :=
  if listEndsWith fileName ".tar.zst".data then DetectedFormat.TarZstd
  else if listEndsWith fileName ".tar.lz4".data then DetectedFormat.TarLz4
  else if listEndsWith fileName ".tar.br".data then DetectedFormat.TarBrotli
  else if listEndsWith fileName ".tar.gz".data || listEndsWith fileName ".tgz".data then
    DetectedFormat.TarGzip
  else if listEndsWith fileName ".tar".data then DetectedFormat.TarPlain
  else
    let ext := (rustExtension fileName).map Char.toLower
    if ext = "zip".data then DetectedFormat.Zip
    else if ext = "7z".data then DetectedFormat.SevenZip
    else if ext = "rar".data then DetectedFormat.Rar
    else if ext = "zst".data then DetectedFormat.TarZstd
    else if ext = "lz4".data then DetectedFormat.TarLz4
    else if ext = "br".data then DetectedFormat.TarBrotli
    else if ext = "gz".data then DetectedFormat.TarGzip
    else DetectedFormat.Unknown

/-- Mirrors `format_detection::detect_format`: magic bytes first, extension
fallback exactly when the magic-byte pass yields `Unknown`. -/
def detect_format (data : List Nat) (fileName : List Char) : DetectedFormat :=
  match detect_from_magic_bytes data with
  | DetectedFormat.Unknown => detect_from_extension fileName
  | r => r

/-! ## Integrity guard (mod resilience) -/

/-- Mirrors `resilience::IntegrityPolicy`. -/
structure IntegrityPolicy where
  crc32 : Option Nat
  hmac_key : Option (List Nat)
  hmac_tag : Option (List Nat)
  retry_attempts : Nat
  skip_bad_blocks : Bool
  block_size : Nat
deriving DecidableEq, Repr

/-- Mirrors `impl Default for IntegrityPolicy`. -/
def IntegrityPolicy.default : IntegrityPolicy :=
  { crc32 := none
    hmac_key := none
    hmac_tag := none
    retry_attempts := 1
    skip_bad_blocks := true
    block_size := 1 <<< 20 }

/-- Mirrors `IntegrityPolicy::strict`: three retry attempts, no skipping,
every other field taken from the default. -/
def IntegrityPolicy.strict : IntegrityPolicy :=
  { IntegrityPolicy.default with retry_attempts := 3, skip_bad_blocks := false }

/-- One reflected CRC-32 (IEEE 802.3) bit step, the algorithm computed by the
`crc32fast` crate. -/
def crc32_step_bit (crc : Nat) : Nat :=
  if crc.land 1 = 1 then (crc >>> 1).xor 0xEDB88320 else crc >>> 1

/-- Iterate the bit step. -/
def crc32_bits : Nat → Nat → Nat
  | 0, crc => crc
  | k + 1, crc => crc32_bits k (crc32_step_bit crc)

/-- Models `crc32fast::hash`: standard CRC-32/ISO-HDLC over the byte list. -/
def crc32fast_hash (bytes : List Nat) : Nat :=
  (bytes.foldl (fun crc b => crc32_bits 8 (crc.xor (b.land 0xFF))) 0xFFFFFFFF).xor 0xFFFFFFFF

/-- Mirrors `resilience::IntegrityVerdict`. -/
inductive IntegrityVerdict where
  | Clean
  | Corrupt (reason : String)
deriving DecidableEq, Repr

/-- Mirrors `resilience::verify_crc32`. -/
def verify_crc32 (bytes : List Nat) (expected : Nat) : IntegrityVerdict :=
  let computed := crc32fast_hash bytes
  if computed = expected then IntegrityVerdict.Clean
  else IntegrityVerdict.Corrupt s!"crc mismatch expected {expected} got {computed}"

/-- Mirrors `resilience::verify_hmac`.  The HMAC-SHA-256 primitive of the
`hmac`/`sha2` crates is an external pure function of the key and the message;
it is passed in as the parameter `hmacFn key bytes`. -/
def verify_hmac (hmacFn : List Nat → List Nat → List Nat)
    (bytes key expected : List Nat) : IntegrityVerdict :=
  if hmacFn key bytes = expected then IntegrityVerdict.Clean
  else IntegrityVerdict.Corrupt "hmac mismatch"

/-- Mirrors `resilience::guard`: the CRC check runs when `policy.crc32` is
set, then the HMAC check runs when both `hmac_key` and `hmac_tag` are set;
the first corrupt verdict becomes an `IntegrityFailure`. -/
def guard (hmacFn : List Nat → List Nat → List Nat) (bytes : List Nat)
    (policy : IntegrityPolicy) : Except ExtractError Unit :=
  let crcStep : Except ExtractError Unit :=
    match policy.crc32 with
    | some expected =>
        match verify_crc32 bytes expected with
        | IntegrityVerdict.Corrupt reason =>
            Except.error (ExtractError.IntegrityFailure reason)
        | IntegrityVerdict.Clean => Except.ok ()
    | none => Except.ok ()
  match crcStep with
  | Except.error e => Except.error e
  | Except.ok _ =>
      match policy.hmac_key, policy.hmac_tag with
      | some key, some tag =>
          match verify_hmac hmacFn bytes key tag with
          | IntegrityVerdict.Corrupt reason =>
              Except.error (ExtractError.IntegrityFailure reason)
          | IntegrityVerdict.Clean => Except.ok ()
      | _, _ => Except.ok ()

/-- Mirrors `IntegrityGuardReader::finalize` after the wrapped stream has
been fully consumed: `consumed` is the byte sequence that passed through the
reader (the rolling CRC hasher exists exactly when `policy.crc32` is set and
then equals the CRC of `consumed`; the rolling MAC exists exactly when
`policy.hmac_key` is set). -/
def finalizeGuard (hmacFn : List Nat → List Nat → List Nat)
    (consumed : List Nat) (policy : IntegrityPolicy) : Except ExtractError Unit :=
  let crcStep : Except ExtractError Unit :=
    match policy.crc32 with
    | some expected =>
        let computed := crc32fast_hash consumed
        if computed = expected then Except.ok ()
        else Except.error
          (ExtractError.IntegrityFailure s!"crc mismatch expected {expected} got {computed}")
    | none => Except.ok ()
  match crcStep with
  | Except.error e => Except.error e
  | Except.ok _ =>
      match policy.hmac_key, policy.hmac_tag with
      | some key, some tag =>
          if hmacFn key consumed = tag then Except.ok ()
          else Except.error (ExtractError.IntegrityFailure "hmac mismatch")
      | _, _ => Except.ok ()

/-- Holds (`true`) on `Except.ok`. -/
def isOkE (r : Except ExtractError Unit) : Bool :=
  match r with
  | Except.ok _ => true
  | Except.error _ => false

/-- Holds exactly when the result is an `IntegrityFailure` error. -/
def isIntegrityErr (r : Except ExtractError Unit) : Bool :=
  match r with
  | Except.error (ExtractError.IntegrityFailure _) => true
  | _ => false

/-- The configured checks of a policy all pass on `bytes`. -/
def checksPass (hmacFn : List Nat → List Nat → List Nat)
    (bytes : List Nat) (policy : IntegrityPolicy) : Prop :=
  (∀ expected, policy.crc32 = some expected → crc32fast_hash bytes = expected) ∧
  (∀ key tag, policy.hmac_key = some key → policy.hmac_tag = some tag →
    hmacFn key bytes = tag)

/-! ## Paths (std::path on Unix, as used by the container engine) -/

/-- A path component: a normal name, `..`, `.`, or the root.  (Windows
prefixes are out of scope; the model is the Unix component set.) -/
inductive PathComp where
  | normal (s : String)
  | parentDir
  | curDir
  | rootDir
deriving DecidableEq, Repr

/-- Holds on a normal component. -/
def isNormalComp (c : PathComp) : Bool :=
  match c with
  | PathComp.normal _ => true
  | _ => false

/-- Mirrors Rust `PathBuf::join` / `push`: an absolute right operand replaces
the base, otherwise the components are appended. -/
def joinPath (base p : List PathComp) : List PathComp :=
  if p.head? = some PathComp.rootDir then p else base ++ p

/-- The out-path computed for one tar entry, line-for-line the Rust
`let out_path = dest.join(path);` in `TarContainer::extract_boxed` — the raw
entry path is joined onto the destination with no sanitization. -/
def tarOutPath (dest entryPath : List PathComp) : List PathComp :=
  joinPath dest entryPath

/-- Models `zip::ZipFile::mangled_name` (the zip crate's
`file_name_sanitized`): the entry name is reduced to its normal components
only; root, `.` and `..` components are dropped. -/
def mangled_name (entryName : List PathComp) : List PathComp :=
  entryName.filter isNormalComp

/-- The out-path computed for one zip entry, mirroring
`let out_path = dest.join(file.mangled_name());` in
`ZipContainer::extract_boxed`. -/
def zipOutPath (dest entryName : List PathComp) : List PathComp :=
  joinPath dest (mangled_name entryName)

/-- Lexically resolve a component list against a stack of directory names.
`none` means the path climbed above the starting directory; `rootDir` jumps
to the filesystem root (modelled as the empty stack of a separate origin, so
any absolute path also resolves, but from the root). -/
def resolveComps : List String → List PathComp → Option (List String)
  | stack, [] => some stack
  | stack, PathComp.normal s :: rest => resolveComps (stack ++ [s]) rest
  | stack, PathComp.curDir :: rest => resolveComps stack rest
  | _, PathComp.rootDir :: rest => resolveComps [] rest
  | stack, PathComp.parentDir :: rest =>
      match stack with
      | [] => none
      | _ :: _ => resolveComps stack.dropLast rest

/-- The resolved path exists and stays below the directory named by `dest`
(a chain of normal names below the process working directory). -/
def underDest (dest : List String) (resolved : Option (List String)) : Bool :=
  match resolved with
  | none => false
  | some l => dest = l.take dest.length

/-! ## Sequential (tar-style) container extraction (TarContainer::extract_boxed) -/

/-- Mirrors `containers::ExtractReport`. -/
structure ExtractReport where
  entries : Nat
  bytes_written : Nat
  warnings : List String
deriving DecidableEq, Repr

/-- The mutable loop state of the extraction loops: `entries`,
`bytes_written`, `warnings`. -/
structure LoopState where
  entries : Nat
  bytes_written : Nat
  warnings : List String
deriving DecidableEq, Repr

/-- The initial loop state. -/
def initLoopState : LoopState := { entries := 0, bytes_written := 0, warnings := [] }

/-- Append one warning string. -/
def pushWarning (st : LoopState) (w : String) : LoopState :=
  { st with warnings := st.warnings ++ [w] }

/-- Outcome of handling one item of the tar entry iterator, abstracting the
filesystem: either the iterator yielded an error, or the entry's path was
unreadable, or the unpack to the computed out-path failed, or it succeeded
writing `size` bytes.  (Parent-directory creation is modelled as succeeding;
its failure propagates via `?` and is outside the entry-level split.) -/
inductive TarEntryOutcome where
  | readFailure (msg : String)
  | pathFailure (msg : String)
  | unpackFailure (outPathText : String) (msg : String)
  | unpackOk (size : Nat)
deriving DecidableEq, Repr

/-- Holds on the three entry-level failure outcomes. -/
def tarEntryIsFailure (o : TarEntryOutcome) : Bool :=
  match o with
  | TarEntryOutcome.unpackOk _ => false
  | _ => true

/-- One iteration of the `for entry_res in entries_iter` loop of
`TarContainer::extract_boxed`: each failure pushes its warning and then
either aborts with `IntegrityFailure` (when `skip_bad_blocks` is false) or
continues; a successful unpack adds the entry's size and bumps the entry
count. -/
def tarProcessEntry (policy : IntegrityPolicy) (st : LoopState) :
    TarEntryOutcome → Except ExtractError LoopState
  | TarEntryOutcome.readFailure msg =>
      let st2 := pushWarning st s!"entry read failure: {msg}"
      if !policy.skip_bad_blocks then Except.error (ExtractError.IntegrityFailure msg)
      else Except.ok st2
  | TarEntryOutcome.pathFailure msg =>
      let st2 := pushWarning st s!"path error: {msg}"
      if !policy.skip_bad_blocks then Except.error (ExtractError.IntegrityFailure msg)
      else Except.ok st2
  | TarEntryOutcome.unpackFailure outPathText msg =>
      let st2 := pushWarning st s!"failed unpack {outPathText}: {msg}"
      if !policy.skip_bad_blocks then Except.error (ExtractError.IntegrityFailure msg)
      else Except.ok st2
  | TarEntryOutcome.unpackOk size =>
      Except.ok { st with bytes_written := st.bytes_written + size, entries := st.entries + 1 }

/-- The whole entry loop, folding `tarProcessEntry` over the iterator's
outcomes in stream order. -/
def tarExtractLoop (policy : IntegrityPolicy) (outcomes : List TarEntryOutcome) :
    Except ExtractError LoopState :=
  outcomes.foldlM (tarProcessEntry policy) initLoopState

/-- Mirrors `TarContainer::extract_boxed` after decoding: run the entry loop, then
finalize the integrity guard over the `consumed` decompressed byte stream
(`guarded.finalize()?`), then return the report. -/
def tarExtract (hmacFn : List Nat → List Nat → List Nat) (policy : IntegrityPolicy)
    (outcomes : List TarEntryOutcome) (consumed : List Nat) :
    Except ExtractError ExtractReport :=
  match tarExtractLoop policy outcomes with
  | Except.error e => Except.error e
  | Except.ok st =>
      match finalizeGuard hmacFn consumed policy with
      | Except.error e => Except.error e
      | Except.ok _ =>
          Except.ok { entries := st.entries, bytes_written := st.bytes_written,
                      warnings := st.warnings }

/-! ## Random-access (zip-style) container extraction (ZipContainer::extract_boxed) -/

/-- Outcome of handling one index of the `for i in 0..archive.len()` loop,
abstracting the filesystem: `by_index` failed, the entry was a directory
name, creating the output file failed, copying its contents failed, or the
copy succeeded writing `written` bytes. -/
inductive ZipEntryOutcome where
  | entryReadFailure (index : Nat) (msg : String)
  | dirEntry
  | createFailure (outPathText : String) (msg : String)
  | copyFailure (outPathText : String) (msg : String)
  | copyOk (written : Nat)
deriving DecidableEq, Repr

/-- Holds on the entry-level failure outcomes of the zip loop. -/
def zipEntryIsFailure (o : ZipEntryOutcome) : Bool :=
  match o with
  | ZipEntryOutcome.entryReadFailure _ _ => true
  | ZipEntryOutcome.createFailure _ _ => true
  | ZipEntryOutcome.copyFailure _ _ => true
  | _ => false

/-- One iteration of the zip entry loop of `ZipContainer::extract_boxed`:
directory entries are created and skipped; each failure pushes a warning and
aborts only when `skip_bad_blocks` is false (a create failure aborts with the
I/O error itself via `e.into()`, the others with `IntegrityFailure`); a
successful copy adds the written bytes and bumps the entry count. -/
def zipProcessEntry (policy : IntegrityPolicy) (st : LoopState) :
    ZipEntryOutcome → Except ExtractError LoopState
  | ZipEntryOutcome.entryReadFailure index msg =>
      let st2 := pushWarning st s!"entry {index} read failed: {msg}"
      if !policy.skip_bad_blocks then Except.error (ExtractError.IntegrityFailure msg)
      else Except.ok st2
  | ZipEntryOutcome.dirEntry => Except.ok st
  | ZipEntryOutcome.createFailure outPathText msg =>
      let st2 := pushWarning st s!"create failed {outPathText}: {msg}"
      if !policy.skip_bad_blocks then Except.error (ExtractError.Io msg)
      else Except.ok st2
  | ZipEntryOutcome.copyFailure outPathText msg =>
      let st2 := pushWarning st s!"copy failed {outPathText}: {msg}"
      if !policy.skip_bad_blocks then Except.error (ExtractError.IntegrityFailure msg)
      else Except.ok st2
  | ZipEntryOutcome.copyOk written =>
      Except.ok { st with bytes_written := st.bytes_written + written, entries := st.entries + 1 }

/-- The whole zip entry loop; no integrity finalization follows it in the
Rust code. -/
def zipExtract (policy : IntegrityPolicy) (outcomes : List ZipEntryOutcome) :
    Except ExtractError ExtractReport :=
  match outcomes.foldlM (zipProcessEntry policy) initLoopState with
  | Except.error e => Except.error e
  | Except.ok st =>
      Except.ok { entries := st.entries, bytes_written := st.bytes_written,
                  warnings := st.warnings }

/-! ## Pipeline orchestrator (mod pipeline) -/

/-- Container names of `Extractor::with_defaults`: a `TarContainer` per codec
(named via `Container::name` from the codec name) plus the `ZipContainer`. -/
def defaultContainerNames : List (List Char) :=
  ["tar.zst".data, "tar.lz4".data, "tar.br".data, "zip".data]

/-- Mirrors `Extractor::find`: first registered container with the exact
name. -/
def findContainer (name : List Char) : Option (List Char) :=
  defaultContainerNames.find? (fun c => c = name)

/-- A filesystem side effect observable to the caller. -/
inductive FsEffect where
  | createdPath (p : String)
  | wrotePath (p : String)
deriving DecidableEq, Repr

/-- Mirrors `Extractor::extract`: look the container up by exact name before
anything else; an unknown name returns `Unsupported(name)` having performed
no filesystem effect.  `containerRun` abstracts `container.extract_boxed`
together with the effects it performs. -/
def Extractor.extract
    (containerRun : List Char → Except ExtractError ExtractReport × List FsEffect)
    (format : List Char) : Except ExtractError ExtractReport × List FsEffect :=
  match findContainer format with
  | none => (Except.error (ExtractError.Unsupported (String.mk format)), [])
  | some name => containerRun name

/-- Mirrors `codecs::compressor_from_name`, returning the canonical
compressor name. -/
def compressor_from_name (name : List Char) : Option String :=
  if name = "zstd".data || name = "zst".data then some "zstd"
  else if name = "lz4".data || name = "lz4hc".data then some "lz4"
  else if name = "brotli".data || name = "br".data then some "brotli"
  else none

/-- The codec-name derivation at the top of `Extractor::compress`: a format
containing a dot is split on dots and the second piece (or `""`) is the codec
name; otherwise the format itself is. -/
def compressCodecName (format : List Char) : List Char :=
  if format.contains '.' then ((splitOnDot format).drop 1).headD []
  else format

/-- Mirrors `pipeline::CompressReport` (the f64 `compression_ratio` is kept
as the integer pair it is computed from). -/
structure CompressReport where
  files : Nat
  bytes_read : Nat
  bytes_written : Nat
deriving DecidableEq, Repr

/-- Mirrors `Extractor::compress` up to its first fallible step: derive the
codec name, look the compressor up, and fail with `Unsupported` before any
filesystem path is created or written.  `rest` abstracts the remainder of
the function (tar build, compression, destination write) together with its
effects. -/
def Extractor.compress
    (rest : String → Except ExtractError CompressReport × List FsEffect)
    (format : List Char) : Except ExtractError CompressReport × List FsEffect :=
  match compressor_from_name (compressCodecName format) with
  | none => (Except.error (ExtractError.Unsupported (String.mk (compressCodecName format))), [])
  | some c => rest c

/-- Substring containment, mirroring Rust `str::contains` on a string
pattern: some position of the haystack carries the pattern. -/
def containsSub (hay pat : List Char) : Bool :=
  (List.range (hay.length + 1)).any (fun i => decide (pat = (hay.drop i).take pat.length))

/-- The include/exclude filter options of `pipeline::CompressOptions`
(`include` is a Lean keyword, hence the `F` suffix on the field names). -/
structure CompressFilters where
  includeF : Option (List (List Char))
  excludeF : Option (List (List Char))
deriving DecidableEq, Repr

/-- The per-file filter of the walk loop in `Extractor::compress`: a file is
appended unless an `include` list is present with no pattern contained in
the relative path, or an `exclude` list is present with some pattern
contained in it. -/
def fileIncluded (filters : CompressFilters) (relPath : List Char) : Bool :=
  (match filters.includeF with
   | some pats => pats.any (fun pat => containsSub relPath pat)
   | none => true) &&
  (match filters.excludeF with
   | some pats => !pats.any (fun pat => containsSub relPath pat)
   | none => true)

/-- The files actually appended to the tar build by the walk loop of
`Extractor::compress`, given the relative paths of the regular files found
under the source directory in walk order. -/
def appendedFiles (filters : CompressFilters) (walkedFiles : List (List Char)) :
    List (List Char) :=
  walkedFiles.filter (fileIncluded filters)

/-- The report built at the end of `Extractor::compress`: `bytes_read` is
the tar buffer length, `bytes_written` the compressed length, and `files`
is the literal constant `1` of line `let files = 1; // TODO` — it does not
depend on how many files were appended. -/
def compressReport (tarLen compressedLen : Nat) : CompressReport :=
  { files := 1, bytes_read := tarLen, bytes_written := compressedLen }

/-! ## Batch orchestration (Extractor::batch_extract / batch_compress) -/

/-- Mirrors `pipeline::BatchExtractReport`. -/
structure BatchExtractReport where
  total_archives : Nat
  successful : Nat
  failed : Nat
  total_files : Nat
  total_bytes : Nat
  errors : List String
deriving DecidableEq, Repr

/-- Mirrors `pipeline::BatchCompressReport`. -/
structure BatchCompressReport where
  total_sources : Nat
  successful : Nat
  failed : Nat
  total_files : Nat
  total_bytes_read : Nat
  total_bytes_written : Nat
  errors : List String
deriving DecidableEq, Repr

/-- How far one archive of a `batch_extract` call got, abstracting the
filesystem: format detection failed, output-directory creation failed, the
input failed to open, extraction returned an error, or extraction returned a
report. -/
inductive BatchItemOutcome where
  | detectFail (msg : String)
  | mkdirFail (msg : String)
  | openFail (msg : String)
  | extractFail (msg : String)
  | extractOk (r : ExtractReport)
deriving DecidableEq, Repr

/-- One iteration of the `for (input_path, output_dir) in archives` loop of
`Extractor::batch_extract`: every failure appends one path-prefixed error and
bumps `failed`; a success bumps `successful`, accumulates the report's
counters and folds its warnings into the error list. -/
def batchExtractStep (rep : BatchExtractReport) (item : String × BatchItemOutcome) :
    BatchExtractReport :=
  let pathText := item.1
  match item.2 with
  | BatchItemOutcome.detectFail msg =>
      { rep with errors := rep.errors ++ [s!"Failed to detect format for {pathText}: {msg}"],
                 failed := rep.failed + 1 }
  | BatchItemOutcome.mkdirFail msg =>
      { rep with errors := rep.errors ++ [s!"Failed to create output directory for {pathText}: {msg}"],
                 failed := rep.failed + 1 }
  | BatchItemOutcome.openFail msg =>
      { rep with errors := rep.errors ++ [s!"Failed to open {pathText}: {msg}"],
                 failed := rep.failed + 1 }
  | BatchItemOutcome.extractFail msg =>
      { rep with errors := rep.errors ++ [s!"Failed to extract {pathText}: {msg}"],
                 failed := rep.failed + 1 }
  | BatchItemOutcome.extractOk r =>
      { rep with successful := rep.successful + 1,
                 total_files := rep.total_files + r.entries,
                 total_bytes := rep.total_bytes + r.bytes_written,
                 errors := rep.errors ++ r.warnings.map (fun w => s!"{pathText}: {w}") }

/-- Mirrors `Extractor::batch_extract`: the report starts with
`total_archives = archives.len()`, every item is folded in, and the function
ends with `Ok(report)` — no per-item failure propagates out. -/
def batch_extract (items : List (String × BatchItemOutcome)) :
    Except ExtractError BatchExtractReport :=
  Except.ok (items.foldl batchExtractStep
    { total_archives := items.length, successful := 0, failed := 0,
      total_files := 0, total_bytes := 0, errors := [] })

/-- How one source of a `batch_compress` call ended. -/
inductive CompressOutcome where
  | fail (msg : String)
  | ok (r : CompressReport)
deriving DecidableEq, Repr

/-- One iteration of the `for (source, destination, format) in sources` loop
of `Extractor::batch_compress`. -/
def batchCompressStep (rep : BatchCompressReport) (item : String × CompressOutcome) :
    BatchCompressReport :=
  let pathText := item.1
  match item.2 with
  | CompressOutcome.fail msg =>
      { rep with errors := rep.errors ++ [s!"Failed to compress {pathText}: {msg}"],
                 failed := rep.failed + 1 }
  | CompressOutcome.ok r =>
      { rep with successful := rep.successful + 1,
                 total_files := rep.total_files + r.files,
                 total_bytes_read := rep.total_bytes_read + r.bytes_read,
                 total_bytes_written := rep.total_bytes_written + r.bytes_written }

/-- Mirrors `Extractor::batch_compress`; like `batch_extract` it always ends
with `Ok(report)`. -/
def batch_compress (items : List (String × CompressOutcome)) :
    Except ExtractError BatchCompressReport :=
  Except.ok (items.foldl batchCompressStep
    { total_sources := items.length, successful := 0, failed := 0,
      total_files := 0, total_bytes_read := 0, total_bytes_written := 0, errors := [] })

/-! ## Concrete inputs used by the witnesses and counterexamples -/

/-- The names of the normal components of a path, in order. -/
def normalNames : List PathComp → List String
  | [] => []
  | PathComp.normal s :: rest => s :: normalNames rest
  | PathComp.parentDir :: rest => normalNames rest
  | PathComp.curDir :: rest => normalNames rest
  | PathComp.rootDir :: rest => normalNames rest

/-- A 512-byte file holding a well-formed ustar header: name `a`
(null-terminated), checksum field of ASCII zeros at offsets 148–154, magic
`ustar\0` at offsets 257–262, zeros elsewhere. -/
def tarHeaderExampleFile : List Nat :=
  [97] ++ List.replicate 147 0 ++ List.replicate 7 48 ++ List.replicate 102 0
    ++ [117, 115, 116, 97, 114, 0] ++ List.replicate 249 0

/-- A policy expecting CRC32 = 1 with `skip_bad_blocks` on: the empty stream
hashes to 0, so finalization must report a mismatch. -/
def mismatchPolicy : IntegrityPolicy :=
  { crc32 := some 1, hmac_key := none, hmac_tag := none,
    retry_attempts := 1, skip_bad_blocks := true, block_size := 1 <<< 20 }

/-- A trivial stand-in for the HMAC primitive, used by concrete witnesses. -/
def hmacZero : List Nat → List Nat → List Nat := fun _ _ => []

/-!
# Theorems
-/

/-- C10: the strict integrity preset leaves `crc32`, `hmac_key` and
`hmac_tag` unset and changes only `retry_attempts` (to 3) and
`skip_bad_blocks` (to false) relative to the default, so under the strict
preset alone `guard` accepts every byte sequence and guard-reader
finalization always succeeds: the preset by itself enables no checksum or
MAC verification. -/
theorem strict_preset_enables_no_checks :
    ∀ (hmacFn : List Nat → List Nat → List Nat) (bytes consumed : List Nat),
    IntegrityPolicy.strict.crc32 = none ∧
    IntegrityPolicy.strict.hmac_key = none ∧
    IntegrityPolicy.strict.hmac_tag = none ∧
    IntegrityPolicy.strict.retry_attempts = 3 ∧
    IntegrityPolicy.strict.skip_bad_blocks = false ∧
    IntegrityPolicy.strict.block_size = IntegrityPolicy.default.block_size ∧
    guard hmacFn bytes IntegrityPolicy.strict = Except.ok () ∧
    finalizeGuard hmacFn consumed IntegrityPolicy.strict = Except.ok () := by
  intro hmacFn bytes consumed
  exact ⟨rfl, rfl, rfl, rfl, rfl, rfl, rfl, rfl⟩

/-- C5: requesting format `"bogus"` from `extract` returns
`Unsupported("bogus")`, and `compress` with format `"bogus"` likewise; in
both cases no filesystem effect has been performed when the error is
returned. -/
theorem bogus_format_unsupported :
    ∀ (containerRun : List Char → Except ExtractError ExtractReport × List FsEffect)
      (rest : String → Except ExtractError CompressReport × List FsEffect),
    Extractor.extract containerRun "bogus".data =
      (Except.error (ExtractError.Unsupported "bogus"), ([] : List FsEffect)) ∧
    Extractor.compress rest "bogus".data =
      (Except.error (ExtractError.Unsupported "bogus"), ([] : List FsEffect)) := by
  intro containerRun rest
  constructor
  · rfl
  · rfl

/-- C9 counterexample: a zero-byte file named `a.zip` is classified `Zip` by
`detect_format`, not `Unknown`, so the claim that a zero-byte file is always
classified `Unknown` regardless of its name fails. -/
theorem zero_byte_named_zip_detects_zip :
    detect_format [] "a.zip".data = DetectedFormat.Zip ∧
    (DetectedFormat.Zip == DetectedFormat.Unknown) = false := by
  constructor
  · rfl
  · rfl

/-- C9 amended: a zero-byte file is classified `Unknown` by the magic-byte
pass, and `detect_format` then falls back to extension detection, so the
overall result is exactly `detect_from_extension` of the file name (and is
`Unknown` only when the extension is also unrecognized). -/
theorem zero_byte_falls_back_to_extension :
    ∀ fileName : List Char,
    detect_from_magic_bytes [] = DetectedFormat.Unknown ∧
    detect_format [] fileName = detect_from_extension fileName := by
  intro fileName
  exact ⟨rfl, rfl⟩

/-- C8: the report of a successful `compress` carries `files = 1`
unconditionally (the literal placeholder of `let files = 1; // TODO`), even
when the walk loop appended two files to the tar build, so the reported
count is not the number of appended entries. -/
theorem compress_files_count_placeholder :
    (appendedFiles { includeF := none, excludeF := none } ["a".data, "b".data]).length = 2 ∧
    (∀ tarLen compressedLen, (compressReport tarLen compressedLen).files = 1) := by
  constructor
  · rfl
  · intro tarLen compressedLen
    rfl

set_option maxRecDepth 100000 in
/-- C7: the plain-tar branch of magic-byte detection is unreachable — the
read buffer holds at most 262 bytes, so the `512 ≤ n` guard never fires and
`validate_tar_header` rejects every buffer shorter than 512 bytes; no file
is ever classified as plain tar by magic bytes.  In particular a 512-byte
file whose on-disk header satisfies the full tar-header validation is still
classified `Unknown`. -/
theorem plain_tar_detection_unreachable :
    (∀ data : List Nat, (detect_from_magic_bytes data == DetectedFormat.TarPlain) = false) ∧
    validate_tar_header tarHeaderExampleFile = true ∧
    detect_from_magic_bytes tarHeaderExampleFile = DetectedFormat.Unknown := by
  refine ⟨?_, by decide, by decide⟩
  intro data
  have hle : min data.length 262 ≤ 262 := Nat.min_le_right _ _
  simp only [detect_from_magic_bytes]
  split
  · rfl
  split
  · rfl
  split
  · rfl
  split
  · rfl
  split
  · rfl
  split
  · rfl
  split
  · rfl
  split
  · rfl
  split
  · rename_i h
    simp only [Bool.and_eq_true, decide_eq_true_eq] at h
    omega
  · rfl

/-- Each step of the batch-extract fold bumps exactly one of the two
counters and never touches `total_archives`. -/
lemma batchExtractStep_counts (rep : BatchExtractReport) (item : String × BatchItemOutcome) :
    (batchExtractStep rep item).successful + (batchExtractStep rep item).failed
        = rep.successful + rep.failed + 1 ∧
    (batchExtractStep rep item).total_archives = rep.total_archives := by
  obtain ⟨pathText, o⟩ := item
  cases o <;> simp [batchExtractStep] <;> omega

/-- Folding any item list starting from any report adds exactly the list's
length to `successful + failed`. -/
lemma batchExtract_fold_counts (items : List (String × BatchItemOutcome))
    (rep : BatchExtractReport) :
    (items.foldl batchExtractStep rep).successful + (items.foldl batchExtractStep rep).failed
        = rep.successful + rep.failed + items.length ∧
    (items.foldl batchExtractStep rep).total_archives = rep.total_archives := by
  induction items generalizing rep with
  | nil => simp
  | cons hd tl ih =>
      simp only [List.foldl_cons, List.length_cons]
      have h1 := batchExtractStep_counts rep hd
      have h2 := ih (batchExtractStep rep hd)
      exact ⟨by omega, h2.2.trans h1.2⟩

/-- Each step of the batch-compress fold bumps exactly one counter and never
touches `total_sources`. -/
lemma batchCompressStep_counts (rep : BatchCompressReport) (item : String × CompressOutcome) :
    (batchCompressStep rep item).successful + (batchCompressStep rep item).failed
        = rep.successful + rep.failed + 1 ∧
    (batchCompressStep rep item).total_sources = rep.total_sources := by
  obtain ⟨pathText, o⟩ := item
  cases o <;> simp [batchCompressStep] <;> omega

/-- Fold version for batch compress. -/
lemma batchCompress_fold_counts (items : List (String × CompressOutcome))
    (rep : BatchCompressReport) :
    (items.foldl batchCompressStep rep).successful + (items.foldl batchCompressStep rep).failed
        = rep.successful + rep.failed + items.length ∧
    (items.foldl batchCompressStep rep).total_sources = rep.total_sources := by
  induction items generalizing rep with
  | nil => simp
  | cons hd tl ih =>
      simp only [List.foldl_cons, List.length_cons]
      have h1 := batchCompressStep_counts rep hd
      have h2 := ih (batchCompressStep rep hd)
      exact ⟨by omega, h2.2.trans h1.2⟩

/-- C3: both batch calls always return `Ok` (no per-item error propagates
out), and the returned report satisfies
`successful + failed = total = number of input items`. -/
theorem batch_report_counts :
    ∀ (itemsE : List (String × BatchItemOutcome)) (itemsC : List (String × CompressOutcome)),
    ∃ repE repC,
      batch_extract itemsE = Except.ok repE ∧
      batch_compress itemsC = Except.ok repC ∧
      repE.successful + repE.failed = itemsE.length ∧
      repE.total_archives = itemsE.length ∧
      repC.successful + repC.failed = itemsC.length ∧
      repC.total_sources = itemsC.length := by
  intro itemsE itemsC
  refine ⟨_, _, rfl, rfl, ?_, ?_, ?_, ?_⟩
  · have h := batchExtract_fold_counts itemsE
      { total_archives := itemsE.length, successful := 0, failed := 0,
        total_files := 0, total_bytes := 0, errors := [] }
    simpa [batch_extract] using h.1
  · have h := batchExtract_fold_counts itemsE
      { total_archives := itemsE.length, successful := 0, failed := 0,
        total_files := 0, total_bytes := 0, errors := [] }
    simpa [batch_extract] using h.2
  · have h := batchCompress_fold_counts itemsC
      { total_sources := itemsC.length, successful := 0, failed := 0,
        total_files := 0, total_bytes_read := 0, total_bytes_written := 0, errors := [] }
    simpa [batch_compress] using h.1
  · have h := batchCompress_fold_counts itemsC
      { total_sources := itemsC.length, successful := 0, failed := 0,
        total_files := 0, total_bytes_read := 0, total_bytes_written := 0, errors := [] }
    simpa [batch_compress] using h.2

/-- C6: `guard` returns `Ok` exactly when every configured check passes —
CRC32 when `crc32` is set, HMAC when both `hmac_key` and `hmac_tag` are set,
absent checks skipped — and any other outcome is an `IntegrityFailure`
error. -/
theorem guard_checks_spec :
    ∀ (hmacFn : List Nat → List Nat → List Nat) (bytes : List Nat)
      (policy : IntegrityPolicy),
    (guard hmacFn bytes policy = Except.ok () ↔ checksPass hmacFn bytes policy) ∧
    (isOkE (guard hmacFn bytes policy) = true ∨
      isIntegrityErr (guard hmacFn bytes policy) = true) := by
  intro hmacFn bytes policy
  obtain ⟨c, k, t, ra, sb, bs⟩ := policy
  cases c with
  | none =>
      cases k with
      | none =>
          simp [guard, checksPass, isOkE]
      | some key =>
          cases t with
          | none => simp [guard, checksPass, isOkE]
          | some tag =>
              by_cases hh : hmacFn key bytes = tag <;>
                simp [guard, checksPass, verify_hmac, hh, isOkE, isIntegrityErr]
  | some expected =>
      by_cases hc : crc32fast_hash bytes = expected
      · cases k with
        | none =>
            simp [guard, checksPass, verify_crc32, hc, isOkE]
        | some key =>
            cases t with
            | none => simp [guard, checksPass, verify_crc32, hc, isOkE]
            | some tag =>
                by_cases hh : hmacFn key bytes = tag <;>
                  simp [guard, checksPass, verify_crc32, verify_hmac, hc, hh, isOkE,
                    isIntegrityErr]
      · cases k <;> cases t <;>
          simp [guard, checksPass, verify_crc32, hc, isOkE, isIntegrityErr]

/-- Every error that guard finalization can produce is an
`IntegrityFailure`. -/
lemma finalizeGuard_error_shape (hmacFn : List Nat → List Nat → List Nat)
    (consumed : List Nat) (policy : IntegrityPolicy) (e : ExtractError)
    (h : finalizeGuard hmacFn consumed policy = Except.error e) :
    ∃ d, e = ExtractError.IntegrityFailure d := by
  obtain ⟨c, k, t, ra, sb, bs⟩ := policy
  cases c with
  | none =>
      cases k with
      | none => simp [finalizeGuard] at h
      | some key =>
          cases t with
          | none => simp [finalizeGuard] at h
          | some tag =>
              by_cases hh : hmacFn key consumed = tag
              · simp [finalizeGuard, hh] at h
              · simp [finalizeGuard, hh] at h
                exact ⟨_, h.symm⟩
  | some expected =>
      by_cases hc : crc32fast_hash consumed = expected
      · cases k with
        | none => simp [finalizeGuard, hc] at h
        | some key =>
            cases t with
            | none => simp [finalizeGuard, hc] at h
            | some tag =>
                by_cases hh : hmacFn key consumed = tag
                · simp [finalizeGuard, hc, hh] at h
                · simp [finalizeGuard, hc, hh] at h
                  exact ⟨_, h.symm⟩
      · simp [finalizeGuard, hc] at h
        exact ⟨_, h.symm⟩

/-- C2: once the entry loop of a sequential-container extraction has
consumed all entries, the integrity guard is finalized; a finalization
mismatch (CRC32 or HMAC) makes the whole extraction fail with
`IntegrityFailure` — for every policy, in particular when
`skip_bad_blocks` is true. -/
theorem tar_finalize_mismatch_fatal
    (hmacFn : List Nat → List Nat → List Nat) (policy : IntegrityPolicy)
    (outcomes : List TarEntryOutcome) (consumed : List Nat) (st : LoopState)
    (hloop : tarExtractLoop policy outcomes = Except.ok st)
    (hfin : isOkE (finalizeGuard hmacFn consumed policy) = false) :
    ∃ d, finalizeGuard hmacFn consumed policy =
          Except.error (ExtractError.IntegrityFailure d) ∧
        tarExtract hmacFn policy outcomes consumed =
          Except.error (ExtractError.IntegrityFailure d) := by
  unfold tarExtract
  rw [hloop]
  cases hres : finalizeGuard hmacFn consumed policy with
  | ok u => rw [hres] at hfin; simp [isOkE] at hfin
  | error e =>
      obtain ⟨d, hd⟩ := finalizeGuard_error_shape hmacFn consumed policy e hres
      subst hd
      exact ⟨d, rfl, rfl⟩

/-- Witness for C2 at a concrete input: the policy expects CRC32 = 1 with
`skip_bad_blocks` on, the consumed stream is empty (CRC 0), the entry list
is empty. -/
theorem tar_finalize_mismatch_fatal_witness :
    ∃ d, finalizeGuard hmacZero [] mismatchPolicy =
          Except.error (ExtractError.IntegrityFailure d) ∧
        tarExtract hmacZero mismatchPolicy [] [] =
          Except.error (ExtractError.IntegrityFailure d) :=
  tar_finalize_mismatch_fatal hmacZero mismatchPolicy [] [] initLoopState rfl (by decide)

/-- C4: for every entry-level failure in either container shape (malformed
entry metadata, unreadable entry path, failed unpack, failed create or
copy), when `skip_bad_blocks` is true the failure is recorded as exactly one
more warning and the loop continues with unchanged counters; when it is
false the iteration aborts with an error. -/
theorem entry_failure_policy_split
    (policy : IntegrityPolicy) (st : LoopState)
    (oT : TarEntryOutcome) (oZ : ZipEntryOutcome)
    (hT : tarEntryIsFailure oT = true) (hZ : zipEntryIsFailure oZ = true) :
    (policy.skip_bad_blocks = true →
      (∃ w, tarProcessEntry policy st oT = Except.ok (pushWarning st w)) ∧
      (∃ w, zipProcessEntry policy st oZ = Except.ok (pushWarning st w))) ∧
    (policy.skip_bad_blocks = false →
      (∃ e, tarProcessEntry policy st oT = Except.error e) ∧
      (∃ e, zipProcessEntry policy st oZ = Except.error e)) := by
  constructor
  · intro hskip
    constructor
    · cases oT <;> simp_all [tarProcessEntry, tarEntryIsFailure, hskip]
    · cases oZ <;> simp_all [zipProcessEntry, zipEntryIsFailure, hskip]
  · intro hskip
    constructor
    · cases oT <;> simp_all [tarProcessEntry, tarEntryIsFailure, hskip]
    · cases oZ <;> simp_all [zipProcessEntry, zipEntryIsFailure, hskip]

/-- Witness for C4 at concrete inputs: a malformed tar entry and a failed
zip copy, against both the lenient default policy and the strict one. -/
theorem entry_failure_policy_split_witness :
    tarEntryIsFailure (TarEntryOutcome.readFailure "bad header") = true ∧
    zipEntryIsFailure (ZipEntryOutcome.copyFailure "out/f" "short read") = true ∧
    ((IntegrityPolicy.default.skip_bad_blocks = true →
      (∃ w, tarProcessEntry IntegrityPolicy.default initLoopState
              (TarEntryOutcome.readFailure "bad header")
            = Except.ok (pushWarning initLoopState w)) ∧
      (∃ w, zipProcessEntry IntegrityPolicy.default initLoopState
              (ZipEntryOutcome.copyFailure "out/f" "short read")
            = Except.ok (pushWarning initLoopState w))) ∧
    (IntegrityPolicy.default.skip_bad_blocks = false →
      (∃ e, tarProcessEntry IntegrityPolicy.default initLoopState
              (TarEntryOutcome.readFailure "bad header") = Except.error e) ∧
      (∃ e, zipProcessEntry IntegrityPolicy.default initLoopState
              (ZipEntryOutcome.copyFailure "out/f" "short read") = Except.error e))) ∧
    ((IntegrityPolicy.strict.skip_bad_blocks = true →
      (∃ w, tarProcessEntry IntegrityPolicy.strict initLoopState
              (TarEntryOutcome.readFailure "bad header")
            = Except.ok (pushWarning initLoopState w)) ∧
      (∃ w, zipProcessEntry IntegrityPolicy.strict initLoopState
              (ZipEntryOutcome.copyFailure "out/f" "short read")
            = Except.ok (pushWarning initLoopState w))) ∧
    (IntegrityPolicy.strict.skip_bad_blocks = false →
      (∃ e, tarProcessEntry IntegrityPolicy.strict initLoopState
              (TarEntryOutcome.readFailure "bad header") = Except.error e) ∧
      (∃ e, zipProcessEntry IntegrityPolicy.strict initLoopState
              (ZipEntryOutcome.copyFailure "out/f" "short read") = Except.error e))) :=
  ⟨rfl, rfl,
   entry_failure_policy_split IntegrityPolicy.default initLoopState
     (TarEntryOutcome.readFailure "bad header")
     (ZipEntryOutcome.copyFailure "out/f" "short read") rfl rfl,
   entry_failure_policy_split IntegrityPolicy.strict initLoopState
     (TarEntryOutcome.readFailure "bad header")
     (ZipEntryOutcome.copyFailure "out/f" "short read") rfl rfl⟩

/-- The zip name sanitization keeps exactly the normal components, as a map
over their names. -/
lemma mangled_name_eq_map (p : List PathComp) :
    mangled_name p = (normalNames p).map PathComp.normal := by
  induction p with
  | nil => rfl
  | cons c rest ih =>
      cases c <;> simp [mangled_name, normalNames, isNormalComp, List.filter_cons] at * <;>
        exact ih

/-- Resolving a run of normal components appends their names to the
stack. -/
lemma resolveComps_normals (names : List String) (stack : List String) :
    resolveComps stack (names.map PathComp.normal) = some (stack ++ names) := by
  induction names generalizing stack with
  | nil => simp [resolveComps]
  | cons s rest ih =>
      simp only [List.map_cons, resolveComps, ih, List.append_assoc, List.singleton_append]

/-- C1 counterexample: with destination `out`, the tar shape computes the
out-path for the entry `../evil` by joining it raw onto the destination; it
resolves to `evil` beside — not below — the destination root, so extraction
writes outside `options.destination`. -/
theorem tar_entry_path_escape_counterexample :
    tarOutPath [PathComp.normal "out"] [PathComp.parentDir, PathComp.normal "evil"]
      = [PathComp.normal "out", PathComp.parentDir, PathComp.normal "evil"] ∧
    resolveComps []
      (tarOutPath [PathComp.normal "out"] [PathComp.parentDir, PathComp.normal "evil"])
      = some ["evil"] ∧
    underDest ["out"]
      (resolveComps []
        (tarOutPath [PathComp.normal "out"] [PathComp.parentDir, PathComp.normal "evil"]))
      = false := by
  refine ⟨rfl, rfl, ?_⟩
  decide

/-- C1 amended: only the zip-style shape confines entry paths — its
`mangled_name` sanitization keeps only normal components, so the joined
out-path always resolves below the destination; the tar-style shape joins
the raw entry path onto the destination (`dest.join(path)` with no
sanitization), so a parent-directory or absolute component escapes. -/
theorem path_confinement_amended :
    ∀ (destNames : List String) (entryName entryPath : List PathComp),
    underDest destNames
      (resolveComps [] (zipOutPath (destNames.map PathComp.normal) entryName)) = true ∧
    tarOutPath (destNames.map PathComp.normal) entryPath =
      (if entryPath.head? = some PathComp.rootDir then entryPath
       else destNames.map PathComp.normal ++ entryPath) := by
  intro destNames entryName entryPath
  constructor
  · have hjoin :
        zipOutPath (destNames.map PathComp.normal) entryName
          = (destNames ++ normalNames entryName).map PathComp.normal := by
      unfold zipOutPath joinPath
      rw [mangled_name_eq_map]
      have hhead : ((normalNames entryName).map PathComp.normal).head? ≠
          some PathComp.rootDir := by
        cases normalNames entryName <;> simp
      rw [if_neg (by simp_all), List.map_append]
    rw [hjoin, resolveComps_normals]
    simp [underDest]
  · rfl

end Quench
